import Mathlib

/-!
Shallow embedding of `src/Forecast.py`, a Tkinter tool that loads a
call-volume dataset, trains a per-weekday regressor, and predicts the
next five weekday call volumes.

Dates are modelled as day numbers (days since 1970-01-01, as `Int`);
`pyWeekday` mirrors Python's `date.weekday()` (Monday = 0 … Sunday = 6).
Call counts and model predictions are modelled as rationals `ℚ`
(the Python code uses floats; all claims here concern exact
arithmetic identities such as truncation, not rounding error).
The trained XGBoost regressor is abstracted as a function from the
single feature `Day` (weekday index) to a predicted count, which is
exactly how `predict_calls` consumes it.
-/

/-- Leap-year test of the Gregorian calendar, as used by
`pandas.to_datetime` when validating a `%d-%m-%Y` date. -/
def isLeap (y : Int) : Bool :=
  (y % 4 == 0 && y % 100 != 0) || y % 400 == 0

/-- Number of days in month `m` (1–12) of year `y`. -/
def daysInMonth (y : Int) (m : Nat) : Nat :=
  if m == 2 then (if isLeap y then 29 else 28)
  else if m == 4 || m == 6 || m == 9 || m == 11 then 30
  else 31

/-- Day number (days since 1970-01-01) of the civil date `y-m-d`
(Howard Hinnant's `days_from_civil` algorithm, with `Int` flooring
division). -/
def daysFromCivil (y : Int) (m d : Nat) : Int :=
  let y' : Int := if m ≤ 2 then y - 1 else y
  let era : Int := (if 0 ≤ y' then y' else y' - 399) / 400
  let yoe : Int := y' - era * 400
  let mp : Int := if m > 2 then (m : Int) - 3 else (m : Int) + 9
  let doy : Int := (153 * mp + 2) / 5 + (d : Int) - 1
  let doe : Int := yoe * 365 + yoe / 4 - yoe / 100 + doy
  era * 146097 + doe - 719468

/-- Python's `date.weekday()`: Monday = 0 … Sunday = 6.
1970-01-01 (day number 0) was a Thursday, hence the offset 3. -/
def pyWeekday (z : Int) : Nat :=
  ((z + 3) % 7).toNat

/-- Day of the year (1-based) of the civil date `y-m-d`. -/
def dayOfYear (y : Int) (m d : Nat) : Nat :=
  (List.range (m - 1)).foldl (fun acc i => acc + daysInMonth y (i + 1)) d

/-- Whether ISO year `y` has 53 weeks: January 1 falls on a Thursday,
or on a Wednesday in a leap year. -/
def isoLongYear (y : Int) : Bool :=
  pyWeekday (daysFromCivil y 1 1) == 3 ||
    (isLeap y && pyWeekday (daysFromCivil y 1 1) == 2)

/-- ISO-8601 week number of the civil date `y-m-d`, mirroring
`Series.dt.isocalendar().week`. -/
def isoWeek (y : Int) (m d : Nat) : Int :=
  let wd : Int := (pyWeekday (daysFromCivil y m d) : Int) + 1
  let w : Int := (10 + (dayOfYear y m d : Int) - wd) / 7
  if w < 1 then (if isoLongYear (y - 1) then 53 else 52)
  else if w > (if isoLongYear y then 53 else 52) then 1
  else w

/-- A parsed civil date: year, month, day. -/
structure CivilDate where
  year : Int
  month : Nat
  dayOfMonth : Nat
  deriving DecidableEq, Repr

/-- Split a character list into the dash-separated fields, as
`str.split("-")` does (an empty input yields one empty field). -/
def splitDash : List Char → List (List Char)
  | [] => [[]]
  | c :: cs =>
    let rest := splitDash cs
    if c = '-' then [] :: rest
    else
      match rest with
      | [] => [[c]]
      | g :: gs => (c :: g) :: gs

/-- Decimal value of a digit list ("2024" ↦ 2024). -/
def digitsToNat (cs : List Char) : Nat :=
  cs.foldl (fun acc c => acc * 10 + (c.toNat - '0'.toNat)) 0

/-- Format-level parse of a string in the fixed `%d-%m-%Y` format:
three dash-separated decimal fields (day, month, year), the day and
month of one or two digits, the year of at most four, denoting a
valid Gregorian calendar date.  This is parseability in the fixed
day-month-year format alone; `parseDate` below adds the Timestamp
bounds coercion that `pd.to_datetime` applies on top of it. -/
def parseFormat (s : String) : Option CivilDate :=
  match splitDash s.toList with
  | [ds, ms, ys] =>
    if ds.length = 0 ∨ ds.length > 2 ∨ ¬ ds.all Char.isDigit then none
    else if ms.length = 0 ∨ ms.length > 2 ∨ ¬ ms.all Char.isDigit then none
    else if ys.length = 0 ∨ ys.length > 4 ∨ ¬ ys.all Char.isDigit then none
    else
      let d := digitsToNat ds
      let m := digitsToNat ms
      let y : Int := (digitsToNat ys : Int)
      if 1 ≤ m ∧ m ≤ 12 ∧ 1 ≤ d ∧ d ≤ daysInMonth y m then
        some ⟨y, m, d⟩
      else none
  | _ => none

/-- Earliest midnight representable as a pandas nanosecond `Timestamp`
(`Timestamp.min` is 1677-09-21 00:12:43.145224193, so the first whole
day is 1677-09-22). -/
def pandasMinDay : Int := daysFromCivil 1677 9 22

/-- Latest midnight representable as a pandas nanosecond `Timestamp`
(`Timestamp.max` is 2262-04-11 23:47:16.854775807). -/
def pandasMaxDay : Int := daysFromCivil 2262 4 11

/-- One cell of
`pd.to_datetime(df["Date"], format="%d-%m-%Y", errors="coerce")`:
parse in the fixed `%d-%m-%Y` format, then coerce to `NaT` (here
`none`) any in-format date whose midnight lies outside the nanosecond
`Timestamp` bounds, as pandas does for e.g. `01-01-1300` or the
two-digit year in `05-01-24`. -/
def parseDate (s : String) : Option CivilDate :=
  match parseFormat s with
  | none => none
  | some c =>
    if pandasMinDay ≤ daysFromCivil c.year c.month c.dayOfMonth ∧
        daysFromCivil c.year c.month c.dayOfMonth ≤ pandasMaxDay then
      some c
    else none

/-- A raw input row, as read from the CSV/Excel file: the `Date` cell
as text and the `Calls Offered` count. -/
structure RawRow where
  dateStr : String
  calls : ℚ
  deriving DecidableEq, Repr

/-- A retained dataset row after preprocessing: the parsed date as a
day number (`Date`), its ISO week number (`Week`), its weekday index
(`Day`), and the call count (`Calls Offered`). -/
structure Row where
  date : Int
  week : Int
  day : Nat
  calls : ℚ
  deriving DecidableEq, Repr

/-- The date-dropping step of `load_data`:
`df.dropna(subset=["Date"])` after the coercing parse removes exactly
the rows whose `Date` did not parse. -/
def dropBadDates (raws : List RawRow) : List RawRow :=
  raws.filter (fun r => (parseDate r.dateStr).isSome)

/-- Convert a raw row whose date parsed into a dataset row, computing
the derived `Week` and `Day` columns. -/
def rowOfRaw (r : RawRow) : Option Row :=
  (parseDate r.dateStr).map (fun c =>
    { date := daysFromCivil c.year c.month c.dayOfMonth
      week := isoWeek c.year c.month c.dayOfMonth
      day := pyWeekday (daysFromCivil c.year c.month c.dayOfMonth)
      calls := r.calls })

/-- Maximum of a list of integers with seed `x` (`Series.max` over a
non-empty series is `listMax1 head tail`). -/
def listMax1 (x : Int) (l : List Int) : Int :=
  l.foldl max x

/-- Minimum of a list of integers with seed `x`. -/
def listMin1 (x : Int) (l : List Int) : Int :=
  l.foldl min x

/-- Result of `load_data`: the retained dataframe plus the module
globals `max_week` and `week_range` it sets (`none` mirrors the `NaN`
that `Series.max`/`min` yield on an empty filtered frame). -/
structure LoadResult where
  rows : List Row
  max_week : Option Int
  week_range : Option Int
  deriving Repr

/-- The dataframe after the preprocessing pipeline of `load_data`:
coercing date parse, `dropna`, derived `Week`/`Day` columns, and the
weekend filter `df = df[df["Day"] < 5]`. -/
def filteredRows (raws : List RawRow) : List Row :=
  ((dropBadDates raws).filterMap rowOfRaw).filter (fun r => r.day < 5)

/-- `load_data`: parse `Date` with the fixed format, drop unparseable
rows, derive `Week` and `Day`, keep only weekday rows (`Day < 5`), and
compute `max_week` and `week_range = max_week - min_week + 1` over the
filtered frame. -/
def load_data (raws : List RawRow) : LoadResult :=
  match (filteredRows raws).map Row.week with
  | [] => { rows := filteredRows raws, max_week := none, week_range := none }
  | w :: ws =>
      { rows := filteredRows raws
        max_week := some (listMax1 w ws)
        week_range := some (listMax1 w ws - listMin1 w ws + 1) }

/-- The trained XGBoost regressor, abstracted as the function it
computes on the single `Day` feature: weekday index to predicted
count.  `predict_calls` only ever evaluates it on `[0, 1, 2, 3, 4]`. -/
def Model : Type := Nat → ℚ

/-- Python's `int(str)` applied to the week-number entry: optional
surrounding spaces, an optional sign, then at least one digit;
`none` models the `ValueError` branch. -/
def pyParseInt (s : String) : Option Int :=
  let t := (((s.toList.dropWhile (· == ' ')).reverse.dropWhile (· == ' ')).reverse)
  match t with
  | '-' :: core =>
    if core ≠ [] ∧ core.all Char.isDigit then some (-(digitsToNat core : Int))
    else none
  | '+' :: core =>
    if core ≠ [] ∧ core.all Char.isDigit then some ((digitsToNat core : Int))
    else none
  | core =>
    if core ≠ [] ∧ core.all Char.isDigit then some ((digitsToNat core : Int))
    else none

/-- Python's `int(float)` on the predicted total: truncation toward
zero (`int(4.9) = 4`), computed on the reduced fraction. -/
def pyInt (q : ℚ) : Int :=
  q.num.tdiv (q.den : Int)

/-- The future-date generation loop of `predict_calls`:
starting at offset `i` from `last_date`, append `last_date + i` when
it is a weekday not present in the dataset's dates, stop after `need`
dates have been collected.  The Python `while` loop has no fuel; the
embedding carries explicit fuel, and `collect_length` below shows
fuel 9 already suffices for the call made by `predict_calls`. -/
def collectDates (dfDates : List Int) (lastDate : Int) :
    Nat → Nat → Nat → List Int
  | 0, _, _ => []
  | fuel + 1, i, need =>
    if need = 0 then []
    else
      let nd := lastDate + (i : Int)
      if pyWeekday nd < 5 ∧ nd ∉ dfDates then
        nd :: collectDates dfDates lastDate fuel (i + 1) (need - 1)
      else
        collectDates dfDates lastDate fuel (i + 1) need

/-- The same loop with the `new_date not in df["Date"].values` check
removed: the pure "next weekdays" generator, used to show the
membership check never fires. -/
def collectPure (lastDate : Int) : Nat → Nat → Nat → List Int
  | 0, _, _ => []
  | fuel + 1, i, need =>
    if need = 0 then []
    else
      let nd := lastDate + (i : Int)
      if pyWeekday nd < 5 then
        nd :: collectPure lastDate fuel (i + 1) (need - 1)
      else
        collectPure lastDate fuel (i + 1) need

/-- The dates of the next seven calendar days after `lastDate` that
fall on a weekday: the specification-side description of what the
future-date loop generates.  Any seven consecutive days contain
exactly five weekdays, so this list is the next five weekdays. -/
def nextSevenWeekdays (lastDate : Int) : List Int :=
  ([1, 2, 3, 4, 5, 6, 7] : List Int).filterMap (fun j =>
    if pyWeekday (lastDate + j) < 5 then some (lastDate + j)
    else none)

/-- The program state `predict_calls` reads: the loaded dataframe, the
trained model (or `None`), and the `max_week` global. -/
structure AppState where
  df : List Row
  model : Option Model
  max_week : Int

/-- Outcome of one invocation of `predict_calls`: each `err`
constructor is one `messagebox.showerror` branch, `errEmpty` the
caught exception raised when the dataframe is empty (`NaT`
arithmetic), and `ok` carries the predicted (date, count) pairs, the
displayed integer total, and the echoed week number. -/
inductive PredictOutcome
  | errNoModel
  | errBadInput
  | errPastWeek
  | errEmpty
  | ok (pairs : List (Int × ℚ)) (total : Int) (week : Int)

/-- `predict_calls`: reject when no model is trained, when the entry
is not an integer, or when the entered week is not strictly beyond
`max_week`; otherwise predict on weekday features `[0,1,2,3,4]`,
generate the next five qualifying dates after the last observed date,
zip them positionally, and truncate the summed predictions. -/
def predict_calls (s : AppState) (entry : String) : PredictOutcome :=
  match s.model with
  | none => .errNoModel
  | some model =>
    match pyParseInt entry with
    | none => .errBadInput
    | some w =>
      if w ≤ s.max_week then .errPastWeek
      else
        match s.df.map Row.date with
        | [] => .errEmpty
        | d :: ds =>
          let preds := [model 0, model 1, model 2, model 3, model 4]
          let lastDate := listMax1 d ds
          let futureDates := collectDates (d :: ds) lastDate 9 1 5
          let pairs := futureDates.zip preds
          let total := pyInt preds.sum
          .ok pairs total w

/-- The GUI-level effect of one click on "Predict Calls Offered": the
new state (only `result_label` ever changes) and the outcome shown.
`resultText` models the `result_label` contents as the (week, total)
pair it displays. -/
def predictStep (s : AppState) (resultText : Option (Int × Int))
    (entry : String) : (AppState × Option (Int × Int)) × PredictOutcome :=
  match predict_calls s entry with
  | .ok pairs total w => ((s, some (w, total)), .ok pairs total w)
  | e => ((s, resultText), e)

/-- The predicted pairs of an outcome, when prediction succeeded. -/
def PredictOutcome.pairs? : PredictOutcome → Option (List (Int × ℚ))
  | .ok pairs _ _ => some pairs
  | _ => none

/-- The displayed total of an outcome, when prediction succeeded. -/
def PredictOutcome.total? : PredictOutcome → Option Int
  | .ok _ total _ => some total
  | _ => none

/-- A small input file: three weekday rows (Fri 05-01-2024,
Mon 08-01-2024, Tue 09-01-2024), one weekend row (Sat 06-01-2024) and
one unparseable row, used to exercise `load_data` concretely. -/
def sampleRaws : List RawRow :=
  [⟨"05-01-2024", 12⟩, ⟨"06-01-2024", 7⟩, ⟨"08-01-2024", 30⟩,
   ⟨"09-01-2024", 25⟩, ⟨"not a date", 5⟩]

/-- A model used in concrete runs: predicts the weekday index itself. -/
def idModel : Model := fun w => (w : ℚ)

/-- A dataset whose last (and only) observed date is Monday
1970-01-05 (day number 4, ISO week 2). -/
def mondayState : AppState :=
  { df := [{ date := 4, week := 2, day := 0, calls := 10 }],
    model := some idModel, max_week := 2 }

/-- A model predicting 49/50 calls for every weekday, so that the five
predictions sum to 4.9. -/
def fracModel : Model := fun _ => mkRat 49 50

/-- A dataset whose last observed date is Friday 1970-01-02 (day
number 1), with the fractional model trained. -/
def fridayFracState : AppState :=
  { df := [{ date := 1, week := 1, day := 4, calls := 10 }],
    model := some fracModel, max_week := 1 }

/-- `mondayState` with no trained model. -/
def untrainedState : AppState :=
  { df := [{ date := 4, week := 2, day := 0, calls := 10 }],
    model := none, max_week := 2 }

/-! ### Supporting lemmas -/

theorem pyWeekday_lt (z : Int) : pyWeekday z < 7 := by
  unfold pyWeekday; omega

theorem pyWeekday_add (d j : Int) (hj : 0 ≤ j) :
    pyWeekday (d + j) = (pyWeekday d + j.toNat) % 7 := by
  unfold pyWeekday; omega

theorem listMax1_mem : ∀ (l : List Int) (x : Int), listMax1 x l ∈ x :: l := by
  intro l
  induction l with
  | nil => intro x; simp [listMax1]
  | cons y ys ih =>
    intro x
    have h := ih (max x y)
    simp only [listMax1, List.foldl_cons] at *
    simp only [List.mem_cons] at h ⊢
    rcases h with h1 | h1
    · rcases max_choice x y with hc | hc
      · exact Or.inl (h1.trans hc)
      · exact Or.inr (Or.inl (h1.trans hc))
    · exact Or.inr (Or.inr h1)

theorem le_listMax1 : ∀ (l : List Int) (x : Int), ∀ d ∈ x :: l, d ≤ listMax1 x l := by
  intro l
  induction l with
  | nil => intro x d hd; simp at hd; simp [listMax1, hd]
  | cons y ys ih =>
    intro x d hd
    simp only [listMax1, List.foldl_cons]
    rcases List.mem_cons.mp hd with rfl | hd1
    · exact le_trans (le_max_left d y) (ih (max d y) _ (List.mem_cons_self _ _))
    · rcases List.mem_cons.mp hd1 with rfl | hd2
      · exact le_trans (le_max_right x d) (ih (max x d) _ (List.mem_cons_self _ _))
      · exact ih (max x y) d (List.mem_cons_of_mem _ hd2)

theorem listMin1_mem : ∀ (l : List Int) (x : Int), listMin1 x l ∈ x :: l := by
  intro l
  induction l with
  | nil => intro x; simp [listMin1]
  | cons y ys ih =>
    intro x
    have h := ih (min x y)
    simp only [listMin1, List.foldl_cons] at *
    simp only [List.mem_cons] at h ⊢
    rcases h with h1 | h1
    · rcases min_choice x y with hc | hc
      · exact Or.inl (h1.trans hc)
      · exact Or.inr (Or.inl (h1.trans hc))
    · exact Or.inr (Or.inr h1)

theorem listMin1_le : ∀ (l : List Int) (x : Int), ∀ d ∈ x :: l, listMin1 x l ≤ d := by
  intro l
  induction l with
  | nil => intro x d hd; simp at hd; simp [listMin1, hd]
  | cons y ys ih =>
    intro x d hd
    simp only [listMin1, List.foldl_cons]
    rcases List.mem_cons.mp hd with rfl | hd1
    · exact le_trans (ih (min d y) _ (List.mem_cons_self _ _)) (min_le_left d y)
    · rcases List.mem_cons.mp hd1 with rfl | hd2
      · exact le_trans (ih (min x d) _ (List.mem_cons_self _ _)) (min_le_right x d)
      · exact ih (min x y) d (List.mem_cons_of_mem _ hd2)

theorem collect_eq_pure (dfDates : List Int) (lastDate : Int)
    (hno : ∀ d ∈ dfDates, d ≤ lastDate) :
    ∀ fuel i need, 1 ≤ i →
      collectDates dfDates lastDate fuel i need = collectPure lastDate fuel i need := by
  intro fuel
  induction fuel with
  | zero => intro i need _; rfl
  | succ n ih =>
    intro i need hi
    simp only [collectDates, collectPure]
    by_cases h0 : need = 0
    · simp [h0]
    · rw [if_neg h0, if_neg h0]
      have hmem : lastDate + (i : Int) ∉ dfDates := fun hm => by
        have := hno _ hm; omega
      by_cases hw : pyWeekday (lastDate + (i : Int)) < 5
      · rw [if_pos ⟨hw, hmem⟩, if_pos hw, ih (i + 1) (need - 1) (by omega)]
      · rw [if_neg (fun hc => hw hc.1), if_neg hw, ih (i + 1) need (by omega)]

theorem collectPure_eq_nextSeven (z : Int) :
    collectPure z 9 1 5 = nextSevenWeekdays z := by
  have h7 := pyWeekday_lt z
  have h : pyWeekday z = 0 ∨ pyWeekday z = 1 ∨ pyWeekday z = 2 ∨ pyWeekday z = 3 ∨
      pyWeekday z = 4 ∨ pyWeekday z = 5 ∨ pyWeekday z = 6 := by omega
  rcases h with h | h | h | h | h | h | h <;>
    simp [collectPure, nextSevenWeekdays, pyWeekday_add, h]

theorem nextSeven_length (z : Int) : (nextSevenWeekdays z).length = 5 := by
  have h7 := pyWeekday_lt z
  have h : pyWeekday z = 0 ∨ pyWeekday z = 1 ∨ pyWeekday z = 2 ∨ pyWeekday z = 3 ∨
      pyWeekday z = 4 ∨ pyWeekday z = 5 ∨ pyWeekday z = 6 := by omega
  rcases h with h | h | h | h | h | h | h <;>
    simp [nextSevenWeekdays, pyWeekday_add, h]

theorem mem_nextSeven (z d : Int) (h : d ∈ nextSevenWeekdays z) :
    pyWeekday d < 5 ∧ ∃ j : Int, 1 ≤ j ∧ j ≤ 7 ∧ d = z + j := by
  simp only [nextSevenWeekdays, List.mem_filterMap, List.mem_cons] at h
  obtain ⟨j, hj, hif⟩ := h
  by_cases hw : pyWeekday (z + j) < 5
  · rw [if_pos hw] at hif
    obtain rfl := Option.some_injective _ hif
    refine ⟨hw, j, ?_, ?_, rfl⟩ <;>
      rcases hj with rfl | rfl | rfl | rfl | rfl | rfl | rfl | hj0 <;>
        first
          | omega
          | cases hj0
  · rw [if_neg hw] at hif
    exact absurd hif (by simp)

theorem load_data_rows (raws : List RawRow) :
    (load_data raws).rows = filteredRows raws := by
  unfold load_data
  split <;> rfl

theorem predict_ok_unfold (s : AppState) (m : Model) (entry : String) (w : Int)
    (d : Int) (ds : List Int)
    (hm : s.model = some m) (hw : pyParseInt entry = some w)
    (hgt : s.max_week < w) (hdf : s.df.map Row.date = d :: ds) :
    predict_calls s entry =
      .ok ((nextSevenWeekdays (listMax1 d ds)).zip [m 0, m 1, m 2, m 3, m 4])
        (pyInt ([m 0, m 1, m 2, m 3, m 4] : List ℚ).sum) w := by
  have hno : ∀ x ∈ d :: ds, x ≤ listMax1 d ds := le_listMax1 ds d
  simp only [predict_calls, hm, hw, hdf]
  rw [if_neg (by omega : ¬ w ≤ s.max_week)]
  rw [collect_eq_pure (d :: ds) (listMax1 d ds) hno 9 1 5 (le_refl 1),
    collectPure_eq_nextSeven]

/-- C3: after every successful load, the retained dataset contains only
weekday rows: each retained row's `Day` is the true weekday index of
its date and is < 5, so every row whose computed weekday is ≥ 5 has
been removed. -/
theorem load_data_only_weekdays (raws : List RawRow) :
    ∀ row ∈ (load_data raws).rows, row.day < 5 ∧ row.day = pyWeekday row.date := by
  intro row hrow
  rw [load_data_rows, filteredRows, List.mem_filter] at hrow
  obtain ⟨hmem, hday⟩ := hrow
  refine ⟨of_decide_eq_true hday, ?_⟩
  rw [List.mem_filterMap] at hmem
  obtain ⟨raw, -, hconv⟩ := hmem
  unfold rowOfRaw at hconv
  cases hp : parseDate raw.dateStr with
  | none => rw [hp] at hconv; simp at hconv
  | some c =>
    rw [hp] at hconv
    simp only [Option.map_some'] at hconv
    obtain rfl := Option.some_injective _ hconv
    rfl

/-- C3 witness: the Friday row of the sample file is retained with
weekday index 4. -/
theorem load_data_only_weekdays_witness :
    ({ date := 19727, week := 1, day := 4, calls := 12 } : Row).day < 5 ∧
      ({ date := 19727, week := 1, day := 4, calls := 12 } : Row).day =
        pyWeekday ({ date := 19727, week := 1, day := 4, calls := 12 } : Row).date :=
  load_data_only_weekdays sampleRaws _ (by decide)

theorem parseDate_isSome_iff (s : String) :
    (parseDate s).isSome ↔ ∃ c, parseFormat s = some c ∧
      pandasMinDay ≤ daysFromCivil c.year c.month c.dayOfMonth ∧
      daysFromCivil c.year c.month c.dayOfMonth ≤ pandasMaxDay := by
  unfold parseDate
  cases hp : parseFormat s with
  | none => simp
  | some c =>
    by_cases hb : pandasMinDay ≤ daysFromCivil c.year c.month c.dayOfMonth ∧
        daysFromCivil c.year c.month c.dayOfMonth ≤ pandasMaxDay
    · simp [hb]
    · simp only [if_neg hb, Option.isSome_none, Bool.false_eq_true, false_iff,
        not_exists]
      intro c' hc'
      obtain ⟨heq, hb'⟩ := hc'
      obtain rfl := Option.some_injective _ heq
      exact hb hb'

/-- C4 counterexample: the cell `01-01-1300` parses in the fixed
day-month-year format, yet the loader drops its row, because pandas
coerces out-of-bounds timestamps to `NaT`. -/
theorem dropBadDates_out_of_bounds_cex :
    (parseFormat "01-01-1300").isSome = true ∧
    parseDate "01-01-1300" = none ∧
    dropBadDates [⟨"01-01-1300", 1⟩] = [] :=
  ⟨by decide, by decide, by decide⟩

/-- C4 amended: the `dropna` step removes a row exactly when its
`Date` cell does not parse in the fixed `%d-%m-%Y` format or parses to
a date outside the pandas `Timestamp` bounds; every row with an
in-format, in-bounds date survives it (the weekend filter runs only
afterwards). -/
theorem dropBadDates_mem_iff_bounds (raws : List RawRow) (r : RawRow) :
    r ∈ dropBadDates raws ↔ r ∈ raws ∧ ∃ c, parseFormat r.dateStr = some c ∧
      pandasMinDay ≤ daysFromCivil c.year c.month c.dayOfMonth ∧
      daysFromCivil c.year c.month c.dayOfMonth ≤ pandasMaxDay := by
  unfold dropBadDates
  rw [List.mem_filter, parseDate_isSome_iff]

/-- C5: for a dataset non-empty after filtering, `week_range` is
max week − min week + 1 over the filtered rows, where max and min are
characterized as members of the week column bounding all entries. -/
theorem week_range_max_sub_min (raws : List RawRow)
    (hne : (load_data raws).rows ≠ []) :
    ∃ M mn : Int,
      (load_data raws).week_range = some (M - mn + 1) ∧
      M ∈ (load_data raws).rows.map Row.week ∧
      (∀ v ∈ (load_data raws).rows.map Row.week, v ≤ M) ∧
      mn ∈ (load_data raws).rows.map Row.week ∧
      (∀ v ∈ (load_data raws).rows.map Row.week, mn ≤ v) := by
  unfold load_data
  split
  case _ heq =>
    exact absurd (by rw [load_data_rows]; exact List.map_eq_nil_iff.mp heq) hne
  case _ w ws heq =>
    refine ⟨listMax1 w ws, listMin1 w ws, rfl, ?_, ?_, ?_, ?_⟩ <;> rw [heq]
    · exact listMax1_mem ws w
    · exact le_listMax1 ws w
    · exact listMin1_mem ws w
    · exact listMin1_le ws w

/-- C5 witness: on the sample file the filtered weeks are {1, 2}, so
`week_range` is 2. -/
theorem week_range_max_sub_min_witness :
    ∃ M mn : Int,
      (load_data sampleRaws).week_range = some (M - mn + 1) ∧
      M ∈ (load_data sampleRaws).rows.map Row.week ∧
      (∀ v ∈ (load_data sampleRaws).rows.map Row.week, v ≤ M) ∧
      mn ∈ (load_data sampleRaws).rows.map Row.week ∧
      (∀ v ∈ (load_data sampleRaws).rows.map Row.week, mn ≤ v) :=
  week_range_max_sub_min sampleRaws (by decide)

/-- C1: with a trained model, a non-empty dataset and a requested week
strictly beyond `max_week`, prediction returns exactly 5 (date, count)
pairs whose dates are weekdays, strictly after every observed date,
and absent from the dataset. -/
theorem predict_five_future_weekday_pairs
    (s : AppState) (m : Model) (entry : String) (w : Int)
    (hm : s.model = some m) (hw : pyParseInt entry = some w)
    (hgt : s.max_week < w) (hne : s.df ≠ []) :
    ∃ pairs total,
      predict_calls s entry = PredictOutcome.ok pairs total w ∧
      pairs.length = 5 ∧
      ∀ p ∈ pairs,
        pyWeekday p.1 < 5 ∧
        (∀ row ∈ s.df, row.date < p.1) ∧
        p.1 ∉ s.df.map Row.date := by
  obtain ⟨r, rs, hcons⟩ := List.exists_cons_of_ne_nil hne
  have hmap : s.df.map Row.date = r.date :: rs.map Row.date := by rw [hcons]; rfl
  refine ⟨_, _, predict_ok_unfold s m entry w r.date (rs.map Row.date) hm hw hgt hmap,
    ?_, ?_⟩
  · rw [List.length_zip, nextSeven_length]
    rfl
  · intro p hp
    obtain ⟨a, b⟩ := p
    obtain ⟨ha, -⟩ := List.of_mem_zip hp
    obtain ⟨hwk, j, hj1, hj7, rfl⟩ := mem_nextSeven _ a ha
    refine ⟨hwk, ?_, ?_⟩
    · intro row hrow
      have hmm : row.date ∈ s.df.map Row.date := List.mem_map_of_mem Row.date hrow
      rw [hmap] at hmm
      have := le_listMax1 (rs.map Row.date) r.date _ hmm
      omega
    · intro hmem
      rw [hmap] at hmem
      have := le_listMax1 (rs.map Row.date) r.date _ hmem
      omega

/-- C1 witness at the one-row Monday dataset with the identity model
and requested week 5. -/
theorem predict_five_future_weekday_pairs_witness :
    ∃ pairs total,
      predict_calls mondayState "5" = PredictOutcome.ok pairs total 5 ∧
      pairs.length = 5 ∧
      ∀ p ∈ pairs,
        pyWeekday p.1 < 5 ∧
        (∀ row ∈ mondayState.df, row.date < p.1) ∧
        p.1 ∉ mondayState.df.map Row.date :=
  predict_five_future_weekday_pairs mondayState idModel "5" 5 rfl (by decide)
    (by decide) (by decide)

/-- C2 counterexample: with the identity model and a dataset ending on
Monday 1970-01-05, the first predicted pair is Tuesday 1970-01-06
(day number 5, weekday 1) carrying the Monday prediction `idModel 0`,
not the prediction for its own weekday. -/
theorem predict_pair_not_own_weekday_cex :
    (predict_calls mondayState "5").pairs? =
      some [(5, idModel 0), (6, idModel 1), (7, idModel 2), (8, idModel 3),
        (11, idModel 4)] ∧
    pyWeekday 5 = 1 ∧
    idModel 0 ≠ idModel (pyWeekday 5) := by
  refine ⟨?_, by decide, ?_⟩
  · rw [predict_ok_unfold mondayState idModel "5" 5 4 [] rfl (by decide)
      (by decide) rfl]
    have hsev : nextSevenWeekdays (listMax1 4 []) = [5, 6, 7, 8, 11] := by decide
    simp only [PredictOutcome.pairs?, hsev]
    rfl
  · intro h5
    simp only [idModel, pyWeekday] at h5
    norm_num at h5

/-- C2 amended: the five predicted counts are assigned positionally:
the i-th generated date is paired with the model's prediction for
weekday index i (0–4), regardless of that date's own weekday. -/
theorem predict_counts_positional
    (s : AppState) (m : Model) (entry : String) (w : Int)
    (hm : s.model = some m) (hw : pyParseInt entry = some w)
    (hgt : s.max_week < w) (hne : s.df ≠ []) :
    ∃ pairs total,
      predict_calls s entry = PredictOutcome.ok pairs total w ∧
      pairs.map Prod.snd = [m 0, m 1, m 2, m 3, m 4] := by
  obtain ⟨r, rs, hcons⟩ := List.exists_cons_of_ne_nil hne
  have hmap : s.df.map Row.date = r.date :: rs.map Row.date := by rw [hcons]; rfl
  refine ⟨_, _, predict_ok_unfold s m entry w r.date (rs.map Row.date) hm hw hgt hmap,
    ?_⟩
  apply List.map_snd_zip
  rw [nextSeven_length]
  rfl

/-- C2 amended witness at the Monday dataset. -/
theorem predict_counts_positional_witness :
    ∃ pairs total,
      predict_calls mondayState "6" = PredictOutcome.ok pairs total 6 ∧
      pairs.map Prod.snd = [idModel 0, idModel 1, idModel 2, idModel 3, idModel 4] :=
  predict_counts_positional mondayState idModel "6" 6 rfl (by decide) (by decide)
    (by decide)

/-- C7 counterexample: with a model predicting 49/50 calls per
weekday the five predictions sum to 4.9; the displayed total is
`int(4.9) = 4`, yet the nearest integer to 4.9 is 5, so the total is
truncated, not rounded to nearest. -/
theorem predict_total_not_rounded_cex :
    ((predict_calls fridayFracState "9").pairs?).map
        (fun l => (l.map Prod.snd).sum) = some ((49 : ℚ)/10) ∧
    (predict_calls fridayFracState "9").total? = some 4 ∧
    round ((49 : ℚ)/10) = (5 : ℤ) ∧ (4 : ℤ) ≠ 5 := by
  have hrun := predict_ok_unfold fridayFracState fracModel "9" 9 1 [] rfl
    (by decide) (by decide) rfl
  have hsev : nextSevenWeekdays (listMax1 1 []) = [4, 5, 6, 7, 8] := by decide
  have hsum : ([fracModel 0, fracModel 1, fracModel 2, fracModel 3,
      fracModel 4] : List ℚ).sum = 49/10 := by
    norm_num [fracModel, Rat.mkRat_eq_div]
  refine ⟨?_, ?_, by norm_num [round_eq], by norm_num⟩
  · rw [hrun]
    simp only [PredictOutcome.pairs?, hsev, Option.map_some']
    rw [show ([4, 5, 6, 7, 8] : List Int).zip [fracModel 0, fracModel 1,
        fracModel 2, fracModel 3, fracModel 4] = [(4, fracModel 0),
        (5, fracModel 1), (6, fracModel 2), (7, fracModel 3), (8, fracModel 4)]
      from rfl]
    rw [show ([(4, fracModel 0), (5, fracModel 1), (6, fracModel 2),
        (7, fracModel 3), (8, fracModel 4)] : List (Int × ℚ)).map Prod.snd =
        [fracModel 0, fracModel 1, fracModel 2, fracModel 3, fracModel 4]
      from rfl]
    rw [hsum]
  · rw [hrun]
    simp only [PredictOutcome.total?, hsum]
    rw [show pyInt ((49:ℚ)/10) = 4 by
      unfold pyInt
      rw [show ((49:ℚ)/10).num = 49 by norm_num,
        show (((49:ℚ)/10).den : ℤ) = 10 by norm_num]
      decide]

/-- C7 amended: the displayed total is the sum of the five predicted
values truncated toward zero (Python `int()`), not rounded to the
nearest integer. -/
theorem predict_total_truncated_sum
    (s : AppState) (m : Model) (entry : String) (w : Int)
    (hm : s.model = some m) (hw : pyParseInt entry = some w)
    (hgt : s.max_week < w) (hne : s.df ≠ []) :
    ∃ pairs total,
      predict_calls s entry = PredictOutcome.ok pairs total w ∧
      total = pyInt ((pairs.map Prod.snd).sum) := by
  obtain ⟨r, rs, hcons⟩ := List.exists_cons_of_ne_nil hne
  have hmap : s.df.map Row.date = r.date :: rs.map Row.date := by rw [hcons]; rfl
  refine ⟨_, _, predict_ok_unfold s m entry w r.date (rs.map Row.date) hm hw hgt hmap,
    ?_⟩
  rw [List.map_snd_zip]
  rw [nextSeven_length]
  rfl

/-- C7 amended witness: on the fractional model the displayed total is
the truncation of 4.9. -/
theorem predict_total_truncated_sum_witness :
    ∃ pairs total,
      predict_calls fridayFracState "9" = PredictOutcome.ok pairs total 9 ∧
      total = pyInt ((pairs.map Prod.snd).sum) :=
  predict_total_truncated_sum fridayFracState fracModel "9" 9 rfl (by decide)
    (by decide) (by decide)

/-- C6: a requested week number not strictly beyond `max_week` is
rejected with the input-error notification; the state and the
displayed result are unchanged and no pairs are produced. -/
theorem reject_non_future_week
    (s : AppState) (m : Model) (rt : Option (Int × Int)) (entry : String) (w : Int)
    (hm : s.model = some m) (hw : pyParseInt entry = some w)
    (hle : w ≤ s.max_week) :
    predictStep s rt entry = ((s, rt), PredictOutcome.errPastWeek) := by
  unfold predictStep
  have h : predict_calls s entry = PredictOutcome.errPastWeek := by
    simp only [predict_calls, hm, hw]
    rw [if_pos hle]
  rw [h]

/-- C6 witness: requesting week 2 when `max_week` is 2 is rejected. -/
theorem reject_non_future_week_witness :
    predictStep mondayState (some (1, 1)) "2" =
      ((mondayState, some (1, 1)), PredictOutcome.errPastWeek) :=
  reject_non_future_week mondayState idModel (some (1, 1)) "2" 2 rfl (by decide)
    (by decide)

/-- C8: invoking prediction with no trained model reports the
missing-model error and leaves the entire program state (dataset,
model, displayed result) unchanged. -/
theorem untrained_model_rejected
    (s : AppState) (rt : Option (Int × Int)) (entry : String)
    (hm : s.model = none) :
    predictStep s rt entry = ((s, rt), PredictOutcome.errNoModel) := by
  unfold predictStep
  have h : predict_calls s entry = PredictOutcome.errNoModel := by
    simp only [predict_calls, hm]
  rw [h]

/-- C8 witness at the untrained state. -/
theorem untrained_model_rejected_witness :
    predictStep untrainedState (some (1, 1)) "5" =
      ((untrainedState, some (1, 1)), PredictOutcome.errNoModel) :=
  untrained_model_rejected untrainedState (some (1, 1)) "5" rfl

/-- C9: called as in `predict_calls` (start offset 1, 5 dates wanted,
dataset dates bounded by their maximum), the generation loop finds its
5 dates within the 9-iteration budget, the membership check never
excludes a candidate (the run equals the check-free run), and the
result is exactly the weekdays among the next seven days — the next
five calendar weekdays after the last observed date. -/
theorem future_loop_exact (d : Int) (ds : List Int) :
    (collectDates (d :: ds) (listMax1 d ds) 9 1 5).length = 5 ∧
    collectDates (d :: ds) (listMax1 d ds) 9 1 5 =
      collectPure (listMax1 d ds) 9 1 5 ∧
    collectDates (d :: ds) (listMax1 d ds) 9 1 5 =
      nextSevenWeekdays (listMax1 d ds) := by
  have heq := collect_eq_pure (d :: ds) (listMax1 d ds) (le_listMax1 ds d) 9 1 5
    (le_refl 1)
  refine ⟨?_, heq, ?_⟩
  · rw [heq, collectPure_eq_nextSeven, nextSeven_length]
  · rw [heq, collectPure_eq_nextSeven]

/-- C10: two admissible week numbers produce identical pairs and an
identical total; the entered week influences only the threshold test
and the echoed label. -/
theorem week_input_noninterference
    (s : AppState) (m : Model) (e1 e2 : String) (w1 w2 : Int)
    (hm : s.model = some m)
    (h1 : pyParseInt e1 = some w1) (h2 : pyParseInt e2 = some w2)
    (hg1 : s.max_week < w1) (hg2 : s.max_week < w2) (hne : s.df ≠ []) :
    ∃ pairs total,
      predict_calls s e1 = PredictOutcome.ok pairs total w1 ∧
      predict_calls s e2 = PredictOutcome.ok pairs total w2 := by
  obtain ⟨r, rs, hcons⟩ := List.exists_cons_of_ne_nil hne
  have hmap : s.df.map Row.date = r.date :: rs.map Row.date := by rw [hcons]; rfl
  exact ⟨_, _,
    predict_ok_unfold s m e1 w1 r.date (rs.map Row.date) hm h1 hg1 hmap,
    predict_ok_unfold s m e2 w2 r.date (rs.map Row.date) hm h2 hg2 hmap⟩

/-- C10 witness: weeks 5 and 60 give the same prediction. -/
theorem week_input_noninterference_witness :
    ∃ pairs total,
      predict_calls mondayState "5" = PredictOutcome.ok pairs total 5 ∧
      predict_calls mondayState "60" = PredictOutcome.ok pairs total 60 :=
  week_input_noninterference mondayState idModel "5" "60" 5 60 rfl (by decide)
    (by decide) (by decide) (by decide) (by decide)
